import Mathlib

/-!
Verification of the Smart_Job_Board annotation/filter/aggregation core.

The JavaScript/TypeScript extractors of `src/jobsdb-hk-frontend.tsx` and
`src/jobsdb-integration.js` work by running JavaScript regular expressions
(`RegExp.test`, `String.match`) and case-insensitive substring scans over a
job-description string.  We embed them shallowly: a small backtracking
regular-expression engine (`Rx`, `mAt`, `rsearch`) reproduces the JS
semantics (leftmost match, greedy quantifiers, ordered alternation,
numbered capture groups), and each extractor is a total Lean function
translated clause by clause from the source.
-/

set_option maxRecDepth 4000

namespace JobBoard

/-- Character class used for the JS `\s` escape (space, tab, newline, carriage return). -/
def isSpaceC (c : Char) : Bool :=
  c == ' ' || c == '\t' || c == '\n' || c == '\r'

/-- Character class used for the JS `\d` escape. -/
def isDigitC (c : Char) : Bool :=
  48 ≤ c.toNat && c.toNat ≤ 57

/-- Regular expressions, restricted to the constructs the source patterns use:
character classes, concatenation, ordered alternation, greedy `?`, greedy `*`
over a character class, and numbered capture groups. -/
inductive Rx where
  | eps : Rx
  | cls (f : Char → Bool) : Rx
  | seq (a b : Rx) : Rx
  | alt (a b : Rx) : Rx
  | opt (a : Rx) : Rx
  | starCls (f : Char → Bool) : Rx
  | grp (n : Nat) (a : Rx) : Rx

/-- Captures recorded during a match: group number paired with the consumed span
(most recent first, as JS keeps the last value written to a group). -/
abbrev Caps := List (Nat × List Char)

/-- Greedy matching of `cls f *` in continuation-passing style: consume as many
`f`-characters as possible, backtracking into the continuation `k`. -/
def starAt {ρ : Type} (f : Char → Bool) : List Char → Caps → (List Char → Caps → Option ρ) → Option ρ
  | [], cp, k => k [] cp
  | c :: cs, cp, k =>
    if f c then (starAt f cs cp k <|> k (c :: cs) cp) else k (c :: cs) cp

/-- Backtracking matcher: try to match `r` at the head of the input, passing the
rest of the input and the accumulated captures to the continuation `k`.
This reproduces the JS regex behaviour on the pattern forms of the source:
alternatives are tried left to right and `?`/`*` are greedy. -/
def mAt {ρ : Type} : Rx → List Char → Caps → (List Char → Caps → Option ρ) → Option ρ
  | .eps, s, cp, k => k s cp
  | .cls _, [], _, _ => none
  | .cls f, c :: cs, cp, k => if f c then k cs cp else none
  | .seq a b, s, cp, k => mAt a s cp (fun s2 cp2 => mAt b s2 cp2 k)
  | .alt a b, s, cp, k => mAt a s cp k <|> mAt b s cp k
  | .opt a, s, cp, k => mAt a s cp k <|> k s cp
  | .starCls f, s, cp, k => starAt f s cp k
  | .grp n a, s, cp, k =>
    mAt a s cp (fun s2 cp2 => k s2 ((n, s.take (s.length - s2.length)) :: cp2))

/-- Leftmost search, as JS `String.match` / `RegExp.test` without the `g` flag:
try the pattern at every start position from the left and return the overall
matched span (`match[0]`) together with the captures of the first success. -/
def rsearch (r : Rx) : List Char → Option (List Char × Caps)
  | [] =>
    match mAt r [] [] (fun _ cp => some (([] : List Char), cp)) with
    | some res => some res
    | none => none
  | c :: cs =>
    match mAt r (c :: cs) [] (fun s2 cp => some ((c :: cs).take ((c :: cs).length - s2.length), cp)) with
    | some res => some res
    | none => rsearch r cs

/-- JS `pattern.test(description)`. -/
def rtest (r : Rx) (s : String) : Bool :=
  (rsearch r s.toList).isSome

/-- Value of capture group `n` of a match result, as a string (`""` for a group
that never captured; unreachable for the groups the source reads). -/
def capStr (n : Nat) (cp : Caps) : String :=
  match cp.find? (fun p => p.1 == n) with
  | some p => ⟨p.2⟩
  | none => ""

/-- Case-insensitive single character, for patterns carrying the JS `i` flag
(`c` is given in lowercase). -/
def chi (c : Char) : Rx := .cls (fun x => x.toLower == c)

/-- Exact single character. -/
def chx (c : Char) : Rx := .cls (fun x => x == c)

/-- Concatenation of a list of regexes. -/
def rseq (l : List Rx) : Rx := l.foldr .seq .eps

/-- Case-insensitive literal word (each character matched through `chi`). -/
def rlit (s : String) : Rx := rseq (s.toList.map chi)

/-- Ordered alternation `a | b₁ | b₂ | ...`, tried left to right. -/
def ralts (a : Rx) (l : List Rx) : Rx := l.foldl .alt a

/-- The JS `\s*` of the source patterns. -/
def ws : Rx := .starCls isSpaceC

/-- One mandatory digit, `\d`. -/
def rdigit : Rx := .cls isDigitC

/-- The JS `\d+` (greedy). -/
def digits1 : Rx := .seq rdigit (.starCls isDigitC)

/-- The JS `\d{1,3}` (greedy, longest first). -/
def d13 : Rx := .seq rdigit (.opt (.seq rdigit (.opt rdigit)))

/-- The JS `\d{2,3}` (greedy, longest first). -/
def d23 : Rx := .seq rdigit (.seq rdigit (.opt rdigit))

/-- The JS `\d{3}`. -/
def d3 : Rx := rseq [rdigit, rdigit, rdigit]

/-- JS `haystack.includes(needle)`: contiguous-substring containment. -/
def sIncludes (needle hay : String) : Bool :=
  decide (needle.toList <:+: hay.toList)

/-- JS `parseInt` restricted to the strings the extractors feed it (capture
groups whose leading characters are decimal digits): parse the leading run of
digits.  The `NaN` case is unreachable on those inputs. -/
def jsParseNat (s : String) : Nat :=
  (s.toList.takeWhile isDigitC).foldl (fun n c => n * 10 + (c.toNat - 48)) 0

/-- JS `parseInt` on arbitrary user input (filter fields): skip leading
whitespace, optional sign, then a leading digit run; `none` models `NaN`. -/
def jsParseInt (s : String) : Option Int :=
  match s.toList.dropWhile isSpaceC with
  | '-' :: rest =>
    if (rest.takeWhile isDigitC) = [] then none
    else some (-(jsParseNat ⟨rest⟩ : Int))
  | rest =>
    if (rest.takeWhile isDigitC) = [] then none
    else some (jsParseNat ⟨rest⟩ : Int)

/-- JS `[...new Set(list)]`: deduplicate keeping first occurrences. -/
def jsDedup (l : List String) : List String :=
  l.foldl (fun acc x => if acc.contains x then acc else acc ++ [x]) []

/-- JS `s.toLowerCase()` on the ASCII texts the extractors handle. -/
def sToLower (s : String) : String := ⟨s.toList.map Char.toLower⟩

/-- JS `s.trim()` (whitespace stripped from both ends). -/
def jsTrim (s : String) : String :=
  ⟨((s.toList.dropWhile isSpaceC).reverse.dropWhile isSpaceC).reverse⟩

/-! ## Generic-board field extractors (`src/jobsdb-hk-frontend.tsx`, lines 696-849) -/

/-- The `techKeywords` registry of `extractTechStack`. -/
def techKeywords : List String :=
  ["JavaScript", "TypeScript", "React", "Angular", "Vue", "Node.js", "Python",
   "Java", "C++", "C#", ".NET", "Ruby", "Rails", "PHP", "Laravel", "Django",
   "Flask", "Spring", "Express", "MongoDB", "PostgreSQL", "MySQL", "Redis",
   "Docker", "Kubernetes", "AWS", "Azure", "GCP", "GraphQL", "REST API",
   "Machine Learning", "TensorFlow", "PyTorch", "Scikit-learn", "Pandas",
   "Swift", "Kotlin", "React Native", "Flutter", "Go", "Rust", "Scala",
   "Elasticsearch", "Kafka", "RabbitMQ", "Jenkins", "Git", "CI/CD"]

/-- `extractTechStack`: case-insensitive substring scan over the keyword list,
collecting the canonical keyword of every hit, then `[...new Set(found)]`. -/
def extractTechStack (description : String) : List String :=
  jsDedup (techKeywords.filter (fun tech => sIncludes (sToLower tech) (sToLower description)))

/-- The ordered pattern list of `extractYearsOfExperience`. -/
def experiencePatterns : List Rx :=
  [rseq [.grp 1 digits1, .opt (chx '+'), ws, rlit "year", .opt (chi 's'), ws,
         .opt (rseq [rlit "of", ws]), rlit "experience"],
   rseq [.grp 1 digits1, .opt (chx '+'), ws, rlit "year", .opt (chi 's'), ws,
         .opt (rseq [rlit "of", ws]), rlit "professional"],
   rseq [.grp 1 digits1, .opt (chx '+'), ws, rlit "year", .opt (chi 's'), ws, rlit "in"],
   rseq [rlit "minimum", ws, .grp 1 digits1, ws, rlit "year", .opt (chi 's')],
   rseq [rlit "at", ws, rlit "least", ws, .grp 1 digits1, ws, rlit "year", .opt (chi 's')]]

/-- `extractYearsOfExperience`: first pattern in priority order that matches
yields `parseInt(match[1])`; `null` if none match. -/
def extractYearsOfExperience (description : String) : Option Nat :=
  match experiencePatterns.findSome? (fun p => rsearch p description.toList) with
  | some res => some (jsParseNat (capStr 1 res.2))
  | none => none

/-- The `positivePatterns` list of `checkVisaSponsorship`. -/
def positivePatterns : List Rx :=
  [rseq [rlit "visa", ws, rlit "sponsorship", ws, .opt (rseq [rlit "is", ws]), rlit "available"],
   rseq [rlit "willing", ws, rlit "to", ws, rlit "sponsor"],
   rseq [rlit "we", ws, rlit "sponsor"],
   rseq [rlit "sponsorship", ws, rlit "provided"],
   rseq [rlit "h1b", ws, rlit "sponsorship"]]

/-- The `negativePatterns` list of `checkVisaSponsorship`. -/
def negativePatterns : List Rx :=
  [rseq [rlit "no", ws, rlit "visa", ws, rlit "sponsorship"],
   rseq [rlit "unable", ws, rlit "to", ws, rlit "sponsor"],
   rseq [rlit "cannot", ws, rlit "sponsor"],
   rseq [rlit "not", ws, rlit "able", ws, rlit "to", ws, rlit "sponsor"],
   rseq [rlit "must", ws, rlit "be", ws, rlit "authorized"],
   rseq [rlit "must", ws, rlit "have", ws, rlit "work", ws, rlit "authorization"]]

/-- `checkVisaSponsorship`: the negative loop runs first and returns `false` on
its first hit; then the positive loop returns `true` on its first hit; else `null`. -/
def checkVisaSponsorship (description : String) : Option Bool :=
  if negativePatterns.any (fun p => rtest p description) then some false
  else if positivePatterns.any (fun p => rtest p description) then some true
  else none

/-- The pattern list of `checkSecurityClearance`. -/
def clearancePatterns : List Rx :=
  [rseq [rlit "security", ws, rlit "clearance", ws, .opt (rseq [rlit "is", ws]), rlit "required"],
   rseq [rlit "must", ws, rlit "have", ws, .opt (rseq [rlit "active", ws]),
         rlit "security", ws, rlit "clearance"],
   rseq [rlit "secret", ws, rlit "clearance"],
   rseq [rlit "top", ws, rlit "secret"],
   rseq [rlit "ts", chx '/', rlit "sci"],
   rseq [rlit "clearance", ws, rlit "required"]]

/-- `checkSecurityClearance`: boolean OR across the pattern list. -/
def checkSecurityClearance (description : String) : Bool :=
  clearancePatterns.any (fun p => rtest p description)

/-- The six education patterns, in the object-literal insertion order the JS
`Object.entries` iteration follows. -/
def educationPatterns : List (String × Rx) :=
  [("Bachelor\x27s", rseq [rlit "bachelor", .opt (chx '\x27'), .opt (chi 's'), ws,
                           .opt (.alt (rlit "degree") (rlit "of"))]),
   ("Master\x27s", rseq [rlit "master", .opt (chx '\x27'), .opt (chi 's'), ws,
                         .opt (.alt (rlit "degree") (rlit "of"))]),
   ("PhD", .alt (rseq [rlit "ph", .opt (chx '.'), chi 'd']) (rlit "doctorate")),
   ("Computer Science", .alt (rseq [rlit "computer", ws, rlit "science"])
                             (rseq [rlit "cs", ws, rlit "degree"])),
   ("Engineering", rseq [rlit "engineering", ws, rlit "degree"]),
   ("Mathematics", .alt (rlit "mathematics") (rseq [rlit "math", ws, rlit "degree"]))]

/-- `extractEducation`: independently test each pattern, pushing the matching
labels in the fixed enumeration order. -/
def extractEducation (description : String) : List String :=
  (educationPatterns.filter (fun p => rtest p.2 description)).map (fun p => p.1)

/-- Salary range record of the generic extractor. -/
structure SalaryRange where
  min : Nat
  max : Nat
deriving DecidableEq, Repr

/-- The ordered pattern list of `extractSalaryRange`. -/
def salaryPatterns : List Rx :=
  [rseq [chx '$', .grp 1 (rseq [d13, .opt (chx ','), d3]), ws, chx '-', ws,
         chx '$', .grp 2 (rseq [d13, .opt (chx ','), d3])],
   rseq [chx '$', .grp 1 (.seq d13 (chi 'k')), ws, chx '-', ws,
         chx '$', .grp 2 (.seq d13 (chi 'k'))],
   rseq [.grp 1 (rseq [d13, .opt (chx ','), d3]), ws, chx '-', ws,
         .grp 2 (rseq [d13, .opt (chx ','), d3]), ws,
         .alt (rseq [rlit "per", ws, rlit "year"]) (rlit "annually")]]

/-- JS `s.replace(/[k,]/gi, "")`. -/
def stripKComma (s : String) : String :=
  ⟨s.toList.filter (fun c => !(c.toLower == 'k' || c == ','))⟩

/-- JS `s.toLowerCase().includes("k")`. -/
def hasK (s : String) : Bool :=
  s.toList.any (fun c => c.toLower == 'k')

/-- `extractSalaryRange`: first matching pattern wins; strip `k` and thousands
separators from each capture, and multiply a capture by 1000 exactly when that
capture itself contained a `k`. -/
def extractSalaryRange (description : String) : Option SalaryRange :=
  match salaryPatterns.findSome? (fun p => rsearch p description.toList) with
  | some res =>
    some { min := (if hasK (capStr 1 res.2) then jsParseNat (stripKComma (capStr 1 res.2)) * 1000
                   else jsParseNat (stripKComma (capStr 1 res.2))),
           max := (if hasK (capStr 2 res.2) then jsParseNat (stripKComma (capStr 2 res.2)) * 1000
                   else jsParseNat (stripKComma (capStr 2 res.2))) }
  | none => none

/-- `extractLocation`: remote terms, else hybrid, else the closed-world
default `On-site`. -/
def extractLocation (description : String) : String :=
  if rtest (ralts (rlit "remote")
      [rseq [rlit "work", ws, rlit "from", ws, rlit "home"],
       rlit "distributed", rlit "anywhere"]) description then "Remote"
  else if rtest (rlit "hybrid") description then "Hybrid"
  else "On-site"

/-- The responsibility-verb keyword list of `summarizeResponsibilities`. -/
def responsibilityKeywords : List String :=
  ["design", "develop", "implement", "maintain", "lead", "collaborate",
   "architect", "build", "deploy", "optimize", "review", "mentor",
   "analyze", "test", "debug", "document", "integrate", "scale"]

/-- Is a character one of the JS sentence separators `[.!?]`. -/
def isSentenceSep (c : Char) : Bool := c == '.' || c == '!' || c == '?'

mutual

/-- JS `description.split(/[.!?]+/)`: a maximal run of separators is one split
point; a leading run yields a leading empty field, a trailing run a trailing
empty field. -/
def splitSepGo : List Char → List Char → List (List Char)
  | [], acc => [acc.reverse]
  | c :: cs, acc =>
    if isSentenceSep c then acc.reverse :: splitSepSkip cs else splitSepGo cs (c :: acc)

/-- Skip the remainder of a separator run, then resume field collection. -/
def splitSepSkip : List Char → List (List Char)
  | [] => [[]]
  | c :: cs => if isSentenceSep c then splitSepSkip cs else splitSepGo cs [c]

end

/-- JS `description.split(/[.!?]+/)` as an operation on strings. -/
def jsSplitSentences (s : String) : List String :=
  (splitSepGo s.toList []).map (fun l => ⟨l⟩)

/-- `summarizeResponsibilities`: keep sentences holding a responsibility verb,
take the first three, join with `". "` and trim; fall back to the first 200
characters plus an ellipsis marker when the joined text is empty. -/
def summarizeResponsibilities (description : String) : String :=
  let relevant := ((jsSplitSentences description).filter
    (fun s => responsibilityKeywords.any (fun k => sIncludes k (sToLower s)))).take 3
  let joined := jsTrim (String.intercalate ". " relevant)
  if joined == "" then ⟨description.toList.take 200⟩ ++ "..." else joined

/-! ## Hong-Kong-specific extractors (`src/jobsdb-integration.js`, lines 31-232) -/

/-- Salary record of the regional extractor. -/
structure HKSalary where
  min : Nat
  max : Nat
  currency : String
deriving DecidableEq, Repr

/-- The ordered `HK_PATTERNS.salary` list. -/
def hkSalaryPatterns : List Rx :=
  [rseq [rlit "hk", .opt (chx '$'), ws, .grp 1 (rseq [d13, .opt (chx ','), d3]), ws, chx '-', ws,
         rlit "hk", .opt (chx '$'), ws, .grp 2 (rseq [d13, .opt (chx ','), d3])],
   rseq [chx '$', .grp 1 (.seq d13 (chi 'k')), ws, chx '-', ws,
         chx '$', .grp 2 (.seq d13 (chi 'k'))],
   rseq [.grp 1 d23, chi 'k', ws, chx '-', ws, .grp 2 d23, chi 'k', ws,
         .alt (rlit "hkd") (rseq [rlit "hk", chx '$'])],
   rseq [rlit "月薪", ws, .cls (fun c => c == '：' || c == ':'), ws, .opt (chx '$'),
         .grp 1 (rseq [d13, .opt (chx ','), d3]), ws, chx '-', ws, .opt (chx '$'),
         .grp 2 (rseq [d13, .opt (chx ','), d3])]]

/-- JS `s.replace(/,/g, "")`. -/
def stripComma (s : String) : String := ⟨s.toList.filter (fun c => !(c == ','))⟩

/-- `extractHKSalary`: first matching pattern wins; both captures are stripped of
`k`/commas, and the ×1000 branch is taken when `match[0].toLowerCase()` contains
a `k` — as written in the source, where `match[0]` is the whole matched span. -/
def extractHKSalary (description : String) : Option HKSalary :=
  match hkSalaryPatterns.findSome? (fun p => rsearch p description.toList) with
  | some res =>
    if hasK (⟨res.1.map Char.toLower⟩ : String) then
      some { min := jsParseNat (stripKComma (capStr 1 res.2)) * 1000,
             max := jsParseNat (stripKComma (capStr 2 res.2)) * 1000,
             currency := "HKD" }
    else
      some { min := jsParseNat (stripComma (stripKComma (capStr 1 res.2))),
             max := jsParseNat (stripComma (stripKComma (capStr 2 res.2))),
             currency := "HKD" }
  | none => none

/-- Work-permit record of `checkWorkPermitRequirements`, all fields defaulting
to `false`. -/
structure WorkPermitReq where
  permanentResidentRequired : Bool
  visaSponsorshipAvailable : Bool
  workVisaAccepted : Bool
deriving DecidableEq, Repr

/-- `checkWorkPermitRequirements`: three independent boolean pattern tests. -/
def checkWorkPermitRequirements (description : String) : WorkPermitReq :=
  { permanentResidentRequired :=
      rtest (ralts (rseq [rlit "permanent", ws, rlit "resident"])
        [rlit "hkid", rlit "香港永久居民"]) description,
    visaSponsorshipAvailable :=
      rtest (.alt (rseq [rlit "visa", ws, rlit "sponsorship", ws, .opt (rseq [rlit "is", ws]),
                         rlit "available"])
                  (rseq [rlit "sponsor", ws, rlit "work", ws, rlit "visa"])) description,
    workVisaAccepted :=
      rtest (.alt (rseq [rlit "valid", ws, rlit "work", ws, rlit "visa", ws, rlit "accepted"])
                  (rseq [rlit "employment", ws, rlit "visa", ws, rlit "holders"])) description }

/-- The `HK_PATTERNS.location.districts` registry. -/
def hkDistricts : List String :=
  ["Central", "Admiralty", "Wan Chai", "Causeway Bay", "Tsim Sha Tsui",
   "Mong Kok", "Kwun Tong", "Quarry Bay", "Tai Koo", "Sha Tin",
   "Tuen Mun", "Yuen Long", "Science Park", "Cyberport"]

/-- The `HK_PATTERNS.location.mtr` registry. -/
def hkMtrLines : List String :=
  ["Island Line", "Tsuen Wan Line", "Kwun Tong Line", "Tseung Kwan O Line",
   "East Rail Line", "West Rail Line"]

/-- Case-insensitive literal test, as the JS `new RegExp(literal, "i").test(d)`
used on the district and MTR registries. -/
def literalTest (lit : String) (d : String) : Bool :=
  rtest (rseq (lit.toList.map (fun c => chi c.toLower))) d

/-- Location record of `extractHKLocation`. -/
structure HKLocation where
  district : Option String
  mtrLine : Option String
  workFromHome : Bool
  hybrid : Bool
deriving DecidableEq, Repr

/-- `extractHKLocation`: first district and first MTR line in registry order,
plus two work-arrangement booleans. -/
def extractHKLocation (description : String) : HKLocation :=
  { district := hkDistricts.find? (fun dist => literalTest dist description),
    mtrLine := hkMtrLines.find? (fun line => literalTest line description),
    workFromHome :=
      rtest (ralts (rseq [rlit "work", ws, rlit "from", ws, rlit "home"])
        [rseq [rlit "remote", ws, rlit "work"], rlit "在家工作"]) description,
    hybrid :=
      rtest (.alt (rseq [rlit "hybrid", ws, .alt (rlit "work") (rlit "arrangement")])
                  (rlit "混合辦公")) description }

/-- The five `languagePatterns`, in object insertion order. -/
def languagePatterns : List (String × Rx) :=
  [("English",
     .alt (rseq [ralts (rlit "fluent") [rlit "proficient", rlit "good", rlit "excellent"], ws,
                 .opt (rseq [rlit "in", ws]), rlit "english"])
          (rseq [rlit "english", ws, .alt (rlit "fluency") (rlit "proficiency")])),
   ("Cantonese", ralts (rlit "cantonese") [rlit "廣東話", rlit "粵語"]),
   ("Mandarin", ralts (rlit "mandarin") [rlit "putonghua", rlit "普通話", rlit "國語"]),
   ("Japanese", ralts (rlit "japanese") [rlit "日語", rlit "日文"]),
   ("Korean", ralts (rlit "korean") [rlit "韓語", rlit "韓文"])]

/-- `extractLanguageRequirements`: all matching languages, fixed order. -/
def extractLanguageRequirements (description : String) : List String :=
  (languagePatterns.filter (fun p => rtest p.2 description)).map (fun p => p.1)

/-- The nine ordered industry categories of `classifyHKIndustry`. -/
def hkIndustries : List (String × Rx) :=
  [("Banking & Finance",
     ralts (rlit "bank") [rlit "financial", rlit "investment", rlit "trading",
       rseq [rlit "hedge", ws, rlit "fund"], rseq [rlit "private", ws, rlit "equity"],
       rseq [rlit "wealth", ws, rlit "management"]]),
   ("Insurance", ralts (rlit "insurance") [rlit "takaful", rlit "actuary", rlit "underwriting"]),
   ("Real Estate", ralts (rlit "property") [rseq [rlit "real", ws, rlit "estate"],
       rlit "construction", rlit "architectural"]),
   ("Retail", ralts (rlit "retail") [rlit "shopping", rlit "mall", rlit "luxury", rlit "fashion"]),
   ("Logistics", ralts (rlit "logistics") [rlit "shipping", rlit "freight",
       rseq [rlit "supply", ws, rlit "chain"], rlit "warehouse"]),
   ("Technology", ralts (rlit "fintech") [rlit "software", rlit "it", rlit "technology",
       rlit "digital", rlit "cyber"]),
   ("Healthcare", ralts (rlit "hospital") [rlit "medical", rlit "clinic",
       rlit "pharmaceutical", rlit "healthcare"]),
   ("Education", ralts (rlit "university") [rlit "school", rlit "education",
       rlit "teaching", rlit "academy"]),
   ("Government", ralts (rlit "government") [rseq [rlit "civil", ws, rlit "service"],
       rseq [rlit "public", ws, rlit "sector"]])]

/-- `classifyHKIndustry`: label of the first category whose pattern matches;
`"Other"` when none does. -/
def classifyHKIndustry (description : String) : String :=
  match hkIndustries.find? (fun p => rtest p.2 description) with
  | some p => p.1
  | none => "Other"

/-- The eight `benefitPatterns`, in object insertion order. -/
def benefitPatterns : List (String × Rx) :=
  [("MPF", ralts (rlit "mpf") [rseq [rlit "mandatory", ws, rlit "provident", ws, rlit "fund"],
       rlit "強積金"]),
   ("Medical Insurance", ralts (rseq [rlit "medical", ws, rlit "insurance"])
       [rseq [rlit "health", ws, rlit "insurance"], rlit "醫療保險"]),
   ("Dental Coverage", .alt (rlit "dental") (rlit "牙科")),
   ("Performance Bonus", ralts (rseq [rlit "performance", ws, rlit "bonus"])
       [rseq [rlit "discretionary", ws, rlit "bonus"], rlit "花紅"]),
   ("Annual Leave", ralts (rseq [rlit "annual", ws, rlit "leave"]) [rlit "al", rlit "年假"]),
   ("Education Allowance", .alt (rseq [rlit "education", ws, rlit "allowance"])
       (rseq [rlit "study", ws, rlit "leave"])),
   ("Housing Allowance", .alt (rseq [rlit "housing", ws, rlit "allowance"])
       (rlit "accommodation")),
   ("Gym Membership", ralts (rlit "gym") [rlit "fitness", rlit "健身"])]

/-- `extractHKBenefits`: all matching benefit tags. -/
def extractHKBenefits (description : String) : List String :=
  (benefitPatterns.filter (fun p => rtest p.2 description)).map (fun p => p.1)

/-- The annotation record assembled by `extractHKSpecificInfo`. -/
structure HKAnnotations where
  salary : Option HKSalary
  workPermitRequired : WorkPermitReq
  location : HKLocation
  languages : List String
  industry : String
  benefits : List String
deriving DecidableEq, Repr

/-- `extractHKSpecificInfo`: merge of the six regional extractors. -/
def extractHKSpecificInfo (description : String) : HKAnnotations :=
  { salary := extractHKSalary description,
    workPermitRequired := checkWorkPermitRequirements description,
    location := extractHKLocation description,
    languages := extractLanguageRequirements description,
    industry := classifyHKIndustry description,
    benefits := extractHKBenefits description }

/-! ## Minimum-salary filters of the two boards

The generic board filters client side (`src/jobsdb-hk-frontend.tsx`,
lines 1022-1028): `parseInt(filters.minSalary) * 1000` is compared against
`job.annotations.salary.min`, and jobs without a salary never match.  The
regional board (`GET /api/jobs/hk`, lines 1476-1480) appends the SQL clause
`salary_max >= parseInt(minSalary)`; a SQL `NULL` column never satisfies it. -/

/-- Annotations of a generic-board job, restricted to the salary field the
minimum-salary filter reads. -/
structure GAnnotations where
  salary : Option SalaryRange
deriving DecidableEq, Repr

/-- A generic-board job as seen by the client-side filter chain. -/
structure GJob where
  annotations : GAnnotations
deriving DecidableEq, Repr

/-- The predicate of the generic board's minSalary clause:
`job.annotations.salary && job.annotations.salary.min >= parseInt(ms) * 1000`
(`NaN` comparisons are false). -/
def minSalaryClauseG (job : GJob) (ms : String) : Bool :=
  match jsParseInt ms, job.annotations.salary with
  | some v, some sal => decide (v * 1000 ≤ (sal.min : Int))
  | _, _ => false

/-- The generic board's minSalary filtering step, guarded by
`filters.minSalary && filters.minSalary !== ''`. -/
def filterByMinSalary (jobs : List GJob) (ms : String) : List GJob :=
  if ms == "" then jobs else jobs.filter (fun job => minSalaryClauseG job ms)

/-- The regional board's `salary_max >= parseInt(minSalary)` SQL clause on one
row, with `none` for a `NULL` column (a `NULL` comparison is not true). -/
def minSalaryClauseHK (ms : String) (salaryMax : Option Int) : Bool :=
  match jsParseInt ms, salaryMax with
  | some m, some v => decide (m ≤ v)
  | _, _ => false

/-! ## Trending aggregation (`GET /api/jobs/hk/trending`, lines 1696-1744)

The SQL query counts `unnest(tech_stack)` rows per technology over the current
window (`created_at > NOW() - days`) and the previous window
(`NOW() - 2·days < created_at ≤ NOW() - days`), full-outer-joins the two count
tables, computes `CASE WHEN previous = 0 THEN 100 ELSE
ROUND((current - previous)/previous * 100, 2) END`, keeps rows with
`current_count > 0`, orders by growth then current count descending, and takes
the top 20.  Timestamps are modelled as integers (only their order is used);
the growth percentage is an exact rational. -/

/-- A stored job row as the trending query reads it. -/
structure TJob where
  createdAt : Int
  techStack : List String
deriving DecidableEq

/-- Rows of the current window. -/
def curWindow (jobs : List TJob) (now days : Int) : List TJob :=
  jobs.filter (fun j => decide (now - days < j.createdAt))

/-- Rows of the previous window (adjacent, non-overlapping). -/
def prevWindow (jobs : List TJob) (now days : Int) : List TJob :=
  jobs.filter (fun j => decide (now - days * 2 < j.createdAt) && decide (j.createdAt ≤ now - days))

/-- `COUNT(*)` of the `unnest(tech_stack)` rows grouped on technology `t`. -/
def techCount (jobs : List TJob) (t : String) : Nat :=
  ((jobs.map (fun j => j.techStack)).flatten).count t

/-- PostgreSQL `ROUND(x, 2)` on numerics: half away from zero at two decimals. -/
def round2 (x : ℚ) : ℚ :=
  (if 0 ≤ x * 100 then (⌊x * 100 + 1 / 2⌋ : ℤ) else -(⌊-(x * 100) + 1 / 2⌋ : ℤ)) / 100

/-- The `CASE` expression computing the growth percentage. -/
def growthOf (cur prev : Nat) : ℚ :=
  if prev = 0 then 100 else round2 (((cur : ℚ) - (prev : ℚ)) / (prev : ℚ) * 100)

/-- One row of the trending result. -/
structure TrendRow where
  technology : String
  currentCount : Nat
  previousCount : Nat
  growthPercentage : ℚ
deriving DecidableEq

/-- Comparison implementing `ORDER BY growth_percentage DESC, current_count DESC`. -/
def trendLE (a b : TrendRow) : Bool :=
  decide (b.growthPercentage < a.growthPercentage) ||
    (decide (a.growthPercentage = b.growthPercentage) && decide (b.currentCount ≤ a.currentCount))

/-- Insertion into a list sorted by `le`. -/
def insertByLE (le : TrendRow → TrendRow → Bool) (x : TrendRow) : List TrendRow → List TrendRow
  | [] => [x]
  | y :: ys => if le x y then x :: y :: ys else y :: insertByLE le x ys

/-- Insertion sort by `le` (any order consistent with the SQL `ORDER BY`). -/
def sortByLE (le : TrendRow → TrendRow → Bool) (l : List TrendRow) : List TrendRow :=
  l.foldr (insertByLE le) []

/-- The trending endpoint's result set: joined per-technology counts with
growth, filtered to positive current counts, sorted, capped at 20. -/
def trending (jobs : List TJob) (now days : Int) : List TrendRow :=
  let cw := curWindow jobs now days
  let pw := prevWindow jobs now days
  let techs := jsDedup ((cw.map (fun j => j.techStack)).flatten ++ (pw.map (fun j => j.techStack)).flatten)
  let rows := techs.map (fun t =>
    { technology := t, currentCount := techCount cw t, previousCount := techCount pw t,
      growthPercentage := growthOf (techCount cw t) (techCount pw t) : TrendRow })
  ((sortByLE trendLE (rows.filter (fun r => decide (0 < r.currentCount)))).take 20)

/-! ## Soundness lemmas for the regex engine

`Matches r l` is the declarative semantics: the pattern `r` can consume the
character list `l` exactly.  Whenever a pattern matches a span occurring
anywhere in the input, the JS-style leftmost search `rsearch` succeeds; this
lets us turn literal-substring hypotheses into `rtest … = true` facts. -/

/-- Declarative matching: `r` matches exactly the characters `l`. -/
inductive Matches : Rx → List Char → Prop where
  | eps : Matches .eps []
  | cls {f : Char → Bool} {c : Char} : f c = true → Matches (.cls f) [c]
  | seq {a b : Rx} {l1 l2 : List Char} :
      Matches a l1 → Matches b l2 → Matches (.seq a b) (l1 ++ l2)
  | altL {a b : Rx} {l : List Char} : Matches a l → Matches (.alt a b) l
  | altR {a b : Rx} {l : List Char} : Matches b l → Matches (.alt a b) l
  | optS {a : Rx} {l : List Char} : Matches a l → Matches (.opt a) l
  | optN {a : Rx} : Matches (.opt a) []
  | star {f : Char → Bool} {l : List Char} :
      (∀ c ∈ l, f c = true) → Matches (.starCls f) l
  | grp {n : Nat} {a : Rx} {l : List Char} : Matches a l → Matches (.grp n a) l

theorem orElse_isSome_left {α : Type} {x y : Option α} (h : x.isSome = true) :
    (x <|> y).isSome = true := by
  cases x with
  | some a => rfl
  | none => simp at h

theorem orElse_isSome_right {α : Type} {x y : Option α} (h : y.isSome = true) :
    (x <|> y).isSome = true := by
  cases x with
  | some a => rfl
  | none => exact h

theorem starAt_isSome_here {ρ : Type} (f : Char → Bool) (s : List Char) (cp : Caps)
    (k : List Char → Caps → Option ρ) (hk : ∀ cp2, (k s cp2).isSome = true) :
    (starAt f s cp k).isSome = true := by
  cases s with
  | nil => simpa [starAt] using hk cp
  | cons c cs =>
    by_cases hc : f c
    · simp only [starAt, hc, if_pos]
      exact orElse_isSome_right (hk cp)
    · simp only [starAt, hc, if_neg, Bool.false_eq_true, not_false_iff]
      exact hk cp

theorem starAt_isSome_consume {ρ : Type} {f : Char → Bool} {l : List Char}
    (hall : ∀ c ∈ l, f c = true) :
    ∀ (post : List Char) (cp : Caps) (k : List Char → Caps → Option ρ),
      (∀ cp2, (k post cp2).isSome = true) → (starAt f (l ++ post) cp k).isSome = true := by
  induction l with
  | nil => intro post cp k hk; exact starAt_isSome_here f post cp k hk
  | cons c cs ih =>
    intro post cp k hk
    have hc : f c = true := hall c (List.mem_cons_self c cs)
    have hrest : ∀ x ∈ cs, f x = true := fun x hx => hall x (List.mem_cons_of_mem c hx)
    simp only [List.cons_append, starAt, hc, if_pos]
    exact orElse_isSome_left (ih hrest post cp k hk)

theorem mAt_isSome_of_matches {ρ : Type} {r : Rx} {l : List Char} (h : Matches r l) :
    ∀ (post : List Char) (cp : Caps) (k : List Char → Caps → Option ρ),
      (∀ cp2, (k post cp2).isSome = true) → (mAt r (l ++ post) cp k).isSome = true := by
  induction h with
  | eps => intro post cp k hk; simpa [mAt] using hk cp
  | cls hf => intro post cp k hk; simpa [mAt, hf] using hk cp
  | seq ha hb iha ihb =>
    intro post cp k hk
    rw [List.append_assoc]
    simp only [mAt]
    exact iha _ cp _ (fun cp2 => ihb post cp2 k hk)
  | altL ha ih =>
    intro post cp k hk
    simp only [mAt]
    exact orElse_isSome_left (ih post cp k hk)
  | altR hb ih =>
    intro post cp k hk
    simp only [mAt]
    exact orElse_isSome_right (ih post cp k hk)
  | optS ha ih =>
    intro post cp k hk
    simp only [mAt]
    exact orElse_isSome_left (ih post cp k hk)
  | optN =>
    intro post cp k hk
    simp only [List.nil_append, mAt]
    exact orElse_isSome_right (hk cp)
  | star hall =>
    intro post cp k hk
    simp only [mAt]
    exact starAt_isSome_consume hall post cp k hk
  | grp ha ih =>
    intro post cp k hk
    simp only [mAt]
    exact ih post cp _ (fun cp2 => hk _)

theorem rsearch_isSome_of_matches_at {r : Rx} :
    ∀ (pre mid post : List Char), Matches r mid →
      (rsearch r (pre ++ (mid ++ post))).isSome = true := by
  intro pre
  induction pre with
  | nil =>
    intro mid post h
    have hm : (mAt r (mid ++ post) []
        (fun s2 cp => some ((mid ++ post).take ((mid ++ post).length - s2.length), cp))).isSome = true :=
      mAt_isSome_of_matches h post [] _ (fun _ => rfl)
    rw [List.nil_append]
    cases hshape : mid ++ post with
    | nil =>
      rw [hshape] at hm
      simp only [rsearch]
      cases hres : mAt r [] [] (fun _ cp => some (([] : List Char), cp)) with
      | some res => rfl
      | none =>
        have hm2 : (mAt r ([] : List Char) [] (fun _ cp => some (([] : List Char), cp))).isSome = true := by
          have h0 : mid = ([] : List Char) := by
            cases mid with
            | nil => rfl
            | cons x xs => simp at hshape
          rw [h0] at h
          simpa using mAt_isSome_of_matches h [] []
            (fun _ cp => some (([] : List Char), cp)) (fun _ => rfl)
        rw [hres] at hm2
        simp at hm2
    | cons c cs =>
      rw [hshape] at hm
      simp only [rsearch]
      cases hres : mAt r (c :: cs) []
          (fun s2 cp => some ((c :: cs).take ((c :: cs).length - s2.length), cp)) with
      | some res => rfl
      | none =>
        rw [hres] at hm
        simp at hm
  | cons c pre ih =>
    intro mid post h
    simp only [List.cons_append, rsearch]
    cases hres : mAt r (c :: (pre ++ (mid ++ post))) []
        (fun s2 cp => some ((c :: (pre ++ (mid ++ post))).take
          ((c :: (pre ++ (mid ++ post))).length - s2.length), cp)) with
    | some res => rfl
    | none => exact ih mid post h

/-- If a pattern declaratively matches a phrase and the phrase occurs verbatim
in the description, the JS `test` succeeds. -/
theorem rtest_true_of_seg {r : Rx} {phrase d : String}
    (hm : Matches r phrase.toList) (hinc : sIncludes phrase d = true) :
    rtest r d = true := by
  have hseg : phrase.toList <:+: d.toList := of_decide_eq_true hinc
  obtain ⟨pre, post, hsplit⟩ := hseg
  unfold rtest
  rw [← hsplit, List.append_assoc]
  exact rsearch_isSome_of_matches_at pre phrase.toList post hm

/-- A sequence of case-insensitive character patterns matches any list of
characters that are fixed points of `Char.toLower`. -/
theorem matches_chiSeq :
    ∀ (l : List Char), (∀ c ∈ l, c.toLower = c) → Matches (rseq (l.map chi)) l := by
  intro l
  induction l with
  | nil => intro _; exact Matches.eps
  | cons c cs ih =>
    intro h
    have hc : (fun x => x.toLower == c) c = true := by
      simp [h c (List.mem_cons_self c cs)]
    have htail : Matches (rseq (cs.map chi)) cs :=
      ih (fun x hx => h x (List.mem_cons_of_mem c hx))
    exact Matches.seq (@Matches.cls (fun x => x.toLower == c) c hc) htail

theorem matches_rlit (s : String) (h : ∀ c ∈ s.toList, c.toLower = c) :
    Matches (rlit s) s.toList :=
  matches_chiSeq s.toList h

theorem matches_ws_one : Matches ws [' '] := by
  apply Matches.star
  intro c hc
  rw [List.mem_singleton] at hc
  subst hc
  rfl

/-- The first negative visa pattern matches the literal phrase
`"no visa sponsorship"`. -/
theorem matches_noVisaPhrase :
    Matches (rseq [rlit "no", ws, rlit "visa", ws, rlit "sponsorship"])
      ("no visa sponsorship".toList) := by
  have e : "no visa sponsorship".toList =
      "no".toList ++ ([' '] ++ ("visa".toList ++ ([' '] ++ ("sponsorship".toList ++ ([] : List Char))))) := by
    decide
  rw [e]
  exact Matches.seq (matches_rlit "no" (by decide))
    (Matches.seq matches_ws_one
      (Matches.seq (matches_rlit "visa" (by decide))
        (Matches.seq matches_ws_one
          (Matches.seq (matches_rlit "sponsorship" (by decide)) Matches.eps))))

/-- The third positive visa pattern matches the literal phrase `"we sponsor"`. -/
theorem matches_weSponsorPhrase :
    Matches (rseq [rlit "we", ws, rlit "sponsor"]) ("we sponsor".toList) := by
  have e : "we sponsor".toList =
      "we".toList ++ ([' '] ++ ("sponsor".toList ++ ([] : List Char))) := by
    decide
  rw [e]
  exact Matches.seq (matches_rlit "we" (by decide))
    (Matches.seq matches_ws_one
      (Matches.seq (matches_rlit "sponsor" (by decide)) Matches.eps))

/-! ## List helper lemmas -/

theorem foldl_dedup_mem (x : String) :
    ∀ (l acc : List String),
      (x ∈ l.foldl (fun acc y => if acc.contains y then acc else acc ++ [y]) acc ↔
        x ∈ acc ∨ x ∈ l) := by
  intro l
  induction l with
  | nil => intro acc; simp
  | cons y ys ih =>
    intro acc
    rw [List.foldl_cons, ih]
    by_cases hc : acc.contains y
    · have hy : y ∈ acc := by
        have := List.mem_of_elem_eq_true hc
        exact this
      simp only [hc, if_pos, List.mem_cons]
      constructor
      · rintro (hx | hx)
        · exact Or.inl hx
        · exact Or.inr (Or.inr hx)
      · rintro (hx | hx | hx)
        · exact Or.inl hx
        · exact Or.inl (hx ▸ hy)
        · exact Or.inr hx
    · simp only [hc, if_neg, Bool.false_eq_true, not_false_iff, List.mem_append,
        List.mem_singleton, List.mem_cons]
      tauto

theorem mem_jsDedup (x : String) (l : List String) : x ∈ jsDedup l ↔ x ∈ l := by
  unfold jsDedup
  rw [foldl_dedup_mem]
  simp

theorem mem_extractTechStack (t d : String) :
    t ∈ extractTechStack d ↔
      t ∈ techKeywords ∧ sIncludes (sToLower t) (sToLower d) = true := by
  unfold extractTechStack
  rw [mem_jsDedup, List.mem_filter]

/-- A `find?` over a list returns the element at index `i` when that element
passes the test and every earlier element fails it. -/
theorem find?_eq_get_of_first {α : Type} (p : α → Bool) :
    ∀ (l : List α) (i : Nat) (h : i < l.length),
      p (l.get ⟨i, h⟩) = true →
      (∀ j (hj : j < i), p (l.get ⟨j, Nat.lt_trans hj h⟩) = false) →
      l.find? p = some (l.get ⟨i, h⟩) := by
  intro l
  induction l with
  | nil => intro i h; exact absurd h (Nat.not_lt_zero i)
  | cons x xs ih =>
    intro i h hp hfirst
    cases i with
    | zero =>
      simp only [List.get] at hp
      simp [List.find?_cons, hp]
    | succ i =>
      have hx : p x = false := by
        have := hfirst 0 (Nat.succ_pos i)
        simpa [List.get] using this
      have hlen : i < xs.length := Nat.lt_of_succ_lt_succ h
      have hp2 : p (xs.get ⟨i, hlen⟩) = true := by
        simpa [List.get] using hp
      have hfirst2 : ∀ j (hj : j < i), p (xs.get ⟨j, Nat.lt_trans hj hlen⟩) = false := by
        intro j hj
        have := hfirst (j + 1) (Nat.succ_lt_succ hj)
        simpa [List.get] using this
      simp only [List.find?_cons, hx]
      simpa [List.get] using ih i hlen hp2 hfirst2

theorem mem_insertByLE (le : TrendRow → TrendRow → Bool) (x : TrendRow) :
    ∀ (l : List TrendRow) (a : TrendRow), a ∈ insertByLE le x l ↔ a = x ∨ a ∈ l := by
  intro l
  induction l with
  | nil => intro a; simp [insertByLE]
  | cons y ys ih =>
    intro a
    by_cases hle : le x y
    · simp [insertByLE, hle, List.mem_cons]
    · simp only [insertByLE, hle, Bool.false_eq_true, if_neg, not_false_iff, List.mem_cons, ih]
      tauto

theorem mem_sortByLE (le : TrendRow → TrendRow → Bool) :
    ∀ (l : List TrendRow) (a : TrendRow), a ∈ sortByLE le l ↔ a ∈ l := by
  intro l
  induction l with
  | nil => intro a; simp [sortByLE]
  | cons y ys ih =>
    intro a
    unfold sortByLE at ih ⊢
    rw [List.foldr_cons, mem_insertByLE, ih, List.mem_cons]

/-- Every row of the trending result carries the growth value computed from its
own counts, and a positive current-window count. -/
theorem trending_row_shape (jobs : List TJob) (now days : Int) (r : TrendRow)
    (hr : r ∈ trending jobs now days) :
    r.growthPercentage = growthOf r.currentCount r.previousCount ∧ 0 < r.currentCount := by
  unfold trending at hr
  have h1 := List.mem_of_mem_take hr
  rw [mem_sortByLE, List.mem_filter] at h1
  obtain ⟨hmap, hpos⟩ := h1
  rw [List.mem_map] at hmap
  obtain ⟨t, _, hteq⟩ := hmap
  constructor
  · rw [← hteq]
  · exact of_decide_eq_true hpos

/-! ## Claim theorems -/

/-- C1: for every description, the visa-sponsorship extractor returns `false`
as soon as some negative pattern matches, regardless of positive matches; with
no negative match it returns `true` iff some positive pattern matches and
`null` otherwise; and any text containing both the phrase
"no visa sponsorship" and the phrase "we sponsor" has a matching positive
pattern yet yields `visaSponsorship = false`. -/
theorem checkVisaSponsorship_negative_precedence :
    ∀ d : String,
      (negativePatterns.any (fun p => rtest p d) = true → checkVisaSponsorship d = some false)
      ∧ (negativePatterns.any (fun p => rtest p d) = false →
          checkVisaSponsorship d =
            if positivePatterns.any (fun p => rtest p d) then some true else none)
      ∧ (sIncludes "no visa sponsorship" d = true → sIncludes "we sponsor" d = true →
          positivePatterns.any (fun p => rtest p d) = true ∧ checkVisaSponsorship d = some false) := by
  intro d
  refine ⟨?_, ?_, ?_⟩
  · intro h
    simp [checkVisaSponsorship, h]
  · intro h
    simp [checkVisaSponsorship, h]
  · intro hno hwe
    have hneg : rtest (rseq [rlit "no", ws, rlit "visa", ws, rlit "sponsorship"]) d = true :=
      rtest_true_of_seg matches_noVisaPhrase hno
    have hpos : rtest (rseq [rlit "we", ws, rlit "sponsor"]) d = true :=
      rtest_true_of_seg matches_weSponsorPhrase hwe
    have hanyn : negativePatterns.any (fun p => rtest p d) = true := by
      rw [List.any_eq_true]
      exact ⟨rseq [rlit "no", ws, rlit "visa", ws, rlit "sponsorship"],
        by simp [negativePatterns], hneg⟩
    have hanyp : positivePatterns.any (fun p => rtest p d) = true := by
      rw [List.any_eq_true]
      exact ⟨rseq [rlit "we", ws, rlit "sponsor"], by simp [positivePatterns], hpos⟩
    exact ⟨hanyp, by simp [checkVisaSponsorship, hanyn]⟩

/-- Witness for C1 at a concrete description containing both phrases. -/
theorem checkVisaSponsorship_negative_precedence_witness :
    sIncludes "no visa sponsorship" "Note: no visa sponsorship. But we sponsor events." = true
    ∧ sIncludes "we sponsor" "Note: no visa sponsorship. But we sponsor events." = true
    ∧ positivePatterns.any
        (fun p => rtest p "Note: no visa sponsorship. But we sponsor events.") = true
    ∧ checkVisaSponsorship "Note: no visa sponsorship. But we sponsor events." = some false := by
  have h := (checkVisaSponsorship_negative_precedence
    "Note: no visa sponsorship. But we sponsor events.").2.2 (by decide) (by decide)
  exact ⟨by decide, by decide, h.1, h.2⟩

/-- C2 (code evaluation at the failing input): the regional salary extractor
takes the ×1000 branch on `"HK$20,000 - HK$40,000"` because `match[0]`
contains the `k` of "HK", producing 20,000,000–40,000,000 instead of the
specified 20,000–40,000. -/
theorem extractHKSalary_hk_prefix_bug :
    extractHKSalary "HK$20,000 - HK$40,000" = some ⟨20000000, 40000000, "HKD"⟩
    ∧ extractHKSalary "HK$20,000 - HK$40,000" ≠ some ⟨20000, 40000, "HKD"⟩
    ∧ hasK (sToLower "HK$20,000 - HK$40,000") = true := by
  refine ⟨by decide, by decide, by decide⟩

/-- C7 counterexample: two descriptions containing `"$120k - $160k"` on which
the extractor returns other amounts — one where the earlier comma-grouped
pattern matches elsewhere, and one where no earlier-listed pattern matches at
all but the `k`-shorthand pattern's leftmost match is an earlier `k`-range. -/
theorem extractSalaryRange_earlier_pattern_cex :
    sIncludes "$120k - $160k" "$100,000 - $140,000 base, or $120k - $160k with equity" = true
    ∧ extractSalaryRange "$100,000 - $140,000 base, or $120k - $160k with equity" =
        some ⟨100000, 140000⟩
    ∧ extractSalaryRange "$100,000 - $140,000 base, or $120k - $160k with equity" ≠
        some ⟨120000, 160000⟩
    ∧ sIncludes "$120k - $160k" "Junior: $90k - $110k; Senior: $120k - $160k" = true
    ∧ rtest (salaryPatterns.get ⟨0, by decide⟩)
        "Junior: $90k - $110k; Senior: $120k - $160k" = false
    ∧ extractSalaryRange "Junior: $90k - $110k; Senior: $120k - $160k" = some ⟨90000, 110000⟩ := by
  refine ⟨by decide, by decide, by decide, by decide, by decide, by decide⟩

/-- C7 (amended): on the description `"$120k - $160k"` itself the `k`-shorthand
pattern fires and each captured amount is multiplied by 1000. -/
theorem extractSalaryRange_k_shorthand :
    extractSalaryRange "$120k - $160k" = some ⟨120000, 160000⟩ := by decide

/-- C9: the extracted tech stack is closed under (lower-cased) keyword
substring containment, and in particular any description containing
"javascript" in the code's lower-cased sense yields both `"JavaScript"` and
`"Java"`. -/
theorem extractTechStack_substring_closure :
    (∀ d t1 t2 : String, t2 ∈ techKeywords →
        sIncludes (sToLower t2) (sToLower t1) = true →
        t1 ∈ extractTechStack d → t2 ∈ extractTechStack d)
    ∧ (∀ d : String, sIncludes "javascript" (sToLower d) = true →
        "JavaScript" ∈ extractTechStack d ∧ "Java" ∈ extractTechStack d) := by
  have hclosure : ∀ d t1 t2 : String, t2 ∈ techKeywords →
      sIncludes (sToLower t2) (sToLower t1) = true →
      t1 ∈ extractTechStack d → t2 ∈ extractTechStack d := by
    intro d t1 t2 ht2 hsub h1
    rw [mem_extractTechStack] at h1 ⊢
    refine ⟨ht2, ?_⟩
    have a : (sToLower t2).toList <:+: (sToLower t1).toList := of_decide_eq_true hsub
    have b : (sToLower t1).toList <:+: (sToLower d).toList := of_decide_eq_true h1.2
    exact decide_eq_true (a.trans b)
  refine ⟨hclosure, ?_⟩
  intro d hjs
  have hJS : "JavaScript" ∈ extractTechStack d := by
    rw [mem_extractTechStack]
    refine ⟨by decide, ?_⟩
    have he : sToLower "JavaScript" = "javascript" := by decide
    rw [he]
    exact hjs
  exact ⟨hJS, hclosure d "JavaScript" "Java" (by decide) (by decide) hJS⟩

/-- Witness for C9 at a concrete description. -/
theorem extractTechStack_substring_closure_witness :
    sIncludes "javascript" (sToLower "Experience with JavaScript frameworks") = true
    ∧ "JavaScript" ∈ extractTechStack "Experience with JavaScript frameworks"
    ∧ "Java" ∈ extractTechStack "Experience with JavaScript frameworks" := by
  have h := extractTechStack_substring_closure.2
    "Experience with JavaScript frameworks" (by decide)
  exact ⟨by decide, h.1, h.2⟩

/-- C10: a description matching either work-authorization phrase pattern is
mapped to `visaSponsorship = false`, because both phrases sit in the
negative-pattern list and negative patterns short-circuit to `false`. -/
theorem checkVisaSponsorship_work_authorization (d : String)
    (h : rtest (rseq [rlit "must", ws, rlit "be", ws, rlit "authorized"]) d = true ∨
         rtest (rseq [rlit "must", ws, rlit "have", ws, rlit "work", ws, rlit "authorization"]) d = true) :
    checkVisaSponsorship d = some false := by
  have hany : negativePatterns.any (fun p => rtest p d) = true := by
    rw [List.any_eq_true]
    cases h with
    | inl h => exact ⟨_, by simp [negativePatterns], h⟩
    | inr h => exact ⟨_, by simp [negativePatterns], h⟩
  simp [checkVisaSponsorship, hany]

/-- Witness for C10 at a description that says nothing about sponsorship. -/
theorem checkVisaSponsorship_work_authorization_witness :
    rtest (rseq [rlit "must", ws, rlit "be", ws, rlit "authorized"])
      "Applicants must be authorized to work in the United States." = true
    ∧ checkVisaSponsorship "Applicants must be authorized to work in the United States." = some false :=
  ⟨by decide, checkVisaSponsorship_work_authorization
    "Applicants must be authorized to work in the United States." (Or.inl (by decide))⟩

/-- C3 counterexample: a job with salary 50,000–80,000 and requested minimum
60 (i.e. 60·1000 = 60,000 ≤ the job's salary max) is nevertheless dropped by
the generic board's filter, which compares against the salary minimum. -/
theorem minSalaryFilter_claim_cex :
    filterByMinSalary [⟨⟨some ⟨50000, 80000⟩⟩⟩] "60" = []
    ∧ jsParseInt "60" = some 60
    ∧ ((60 : Int) * 1000 ≤ ((80000 : Nat) : Int))
    ∧ minSalaryClauseHK "60000" (some 80000) = true := by
  refine ⟨by decide, by decide, by decide, by decide⟩

/-- C3 (amended): the regional board's minSalary query matches a row iff its
`salary_max` is non-NULL and at least the requested minimum, while the generic
board's minSalary filter matches a job iff it has a salary whose *minimum* is
at least 1000 times the requested value. -/
theorem minSalary_filter_semantics :
    ∀ (ms : String) (m : Int), jsParseInt ms = some m →
      (∀ smax : Option Int, minSalaryClauseHK ms smax = true ↔ ∃ v, smax = some v ∧ m ≤ v)
      ∧ (∀ job : GJob, minSalaryClauseG job ms = true ↔
          ∃ sal, job.annotations.salary = some sal ∧ m * 1000 ≤ (sal.min : Int))
      ∧ (∀ (jobs : List GJob) (job : GJob), ms ≠ "" →
          (job ∈ filterByMinSalary jobs ms ↔ job ∈ jobs ∧ minSalaryClauseG job ms = true)) := by
  intro ms m hm
  refine ⟨?_, ?_, ?_⟩
  · intro smax
    cases smax with
    | none => simp [minSalaryClauseHK, hm]
    | some v => simp [minSalaryClauseHK, hm]
  · intro job
    cases hsal : job.annotations.salary with
    | none => simp [minSalaryClauseG, hm, hsal]
    | some sal => simp [minSalaryClauseG, hm, hsal]
  · intro jobs job hne
    have hbe : (ms == "") = false := by
      simp [hne]
    simp [filterByMinSalary, hbe, List.mem_filter]

/-- Witness for C3's amended statement at concrete values. -/
theorem minSalary_filter_semantics_witness :
    jsParseInt "60" = some 60
    ∧ (minSalaryClauseG ⟨⟨some ⟨70000, 80000⟩⟩⟩ "60" = true ↔
        ∃ sal, (⟨⟨some ⟨70000, 80000⟩⟩⟩ : GJob).annotations.salary = some sal ∧
          (60 : Int) * 1000 ≤ (sal.min : Int)) :=
  ⟨by decide, (minSalary_filter_semantics "60" 60 (by decide)).2.1 ⟨⟨some ⟨70000, 80000⟩⟩⟩⟩

/-- C4: the industry classifier returns the label of the first category in the
fixed ordered list whose pattern matches, `"Other"` when no pattern matches;
any banking-pattern match wins outright (the category is first), and a
concrete description matching both banking and technology vocabulary resolves
to `"Banking & Finance"`. -/
theorem classifyHKIndustry_first_match :
    ∀ d : String,
      (∀ i (h : i < hkIndustries.length),
        rtest (hkIndustries.get ⟨i, h⟩).2 d = true →
        (∀ j (hj : j < i), rtest (hkIndustries.get ⟨j, Nat.lt_trans hj h⟩).2 d = false) →
        classifyHKIndustry d = (hkIndustries.get ⟨i, h⟩).1)
      ∧ ((∀ p ∈ hkIndustries, rtest p.2 d = false) → classifyHKIndustry d = "Other")
      ∧ (rtest (hkIndustries.get ⟨0, by decide⟩).2 d = true →
          classifyHKIndustry d = "Banking & Finance")
      ∧ (classifyHKIndustry "Global investment bank hiring fintech engineers" = "Banking & Finance"
         ∧ rtest (hkIndustries.get ⟨5, by decide⟩).2
             "Global investment bank hiring fintech engineers" = true) := by
  intro d
  have hfirst : ∀ i (h : i < hkIndustries.length),
      rtest (hkIndustries.get ⟨i, h⟩).2 d = true →
      (∀ j (hj : j < i), rtest (hkIndustries.get ⟨j, Nat.lt_trans hj h⟩).2 d = false) →
      classifyHKIndustry d = (hkIndustries.get ⟨i, h⟩).1 := by
    intro i h hp hbefore
    have hfind := find?_eq_get_of_first (fun p => rtest p.2 d) hkIndustries i h hp hbefore
    simp [classifyHKIndustry, hfind]
  refine ⟨hfirst, ?_, ?_, by decide, by decide⟩
  · intro hall
    have hnone : hkIndustries.find? (fun p => rtest p.2 d) = none := by
      rw [List.find?_eq_none]
      intro p hp
      simp [hall p hp]
    simp [classifyHKIndustry, hnone]
  · intro h0
    exact hfirst 0 (by decide) h0 (fun j hj => absurd hj (Nat.not_lt_zero j))

/-- Witness for C4 at a concrete banking description. -/
theorem classifyHKIndustry_first_match_witness :
    rtest (hkIndustries.get ⟨0, by decide⟩).2 "Major bank in Central" = true
    ∧ classifyHKIndustry "Major bank in Central" = "Banking & Finance" :=
  ⟨by decide, (classifyHKIndustry_first_match "Major bank in Central").2.2.1 (by decide)⟩

/-- C5 counterexample: with current = 1 and previous = 3 the trending row
carries the two-decimal-rounded value −66.67, which differs from the claim's
un-rounded formula (current − previous)/previous × 100 = −66.666…. -/
theorem trending_growth_rounding_cex :
    trending [⟨-1, ["Go"]⟩, ⟨-8, ["Go"]⟩, ⟨-8, ["Go"]⟩, ⟨-8, ["Go"]⟩] 0 7 =
      [⟨"Go", 1, 3, -6667 / 100⟩]
    ∧ ((-6667 : ℚ) / 100 ≠ ((1 : ℚ) - 3) / 3 * 100) := by
  have hg : growthOf 1 3 = -6667 / 100 := by
    rw [growthOf]
    norm_num [round2]
  refine ⟨?_, by norm_num⟩
  rw [show trending [⟨-1, ["Go"]⟩, ⟨-8, ["Go"]⟩, ⟨-8, ["Go"]⟩, ⟨-8, ["Go"]⟩] 0 7 =
      [⟨"Go", 1, 3, growthOf 1 3⟩] from rfl, hg]

/-- C5 (amended): every trending row's growth percentage is 100 when its previous-window
count is 0 (never a division error or infinity — the division branch is not
taken), and otherwise equals `ROUND((current − previous)/previous·100, 2)`;
concretely, current = 45 with previous = 0 yields exactly growth 100. -/
theorem trending_growth_semantics :
    (∀ (jobs : List TJob) (now days : Int) (r : TrendRow), r ∈ trending jobs now days →
      (r.previousCount = 0 → r.growthPercentage = 100)
      ∧ (r.previousCount ≠ 0 → r.growthPercentage =
          round2 (((r.currentCount : ℚ) - (r.previousCount : ℚ)) / (r.previousCount : ℚ) * 100)))
    ∧ trending (List.replicate 45 ⟨-1, ["React"]⟩) 0 7 = [⟨"React", 45, 0, 100⟩] := by
  refine ⟨?_, by decide⟩
  intro jobs now days r hr
  obtain ⟨hg, _⟩ := trending_row_shape jobs now days r hr
  constructor
  · intro hp
    rw [hg, growthOf, hp]
    simp
  · intro hp
    rw [hg, growthOf, if_neg hp]

/-- Witness for C5 at the 45-current/0-previous instance. -/
theorem trending_growth_semantics_witness :
    (⟨"React", 45, 0, 100⟩ : TrendRow) ∈ trending (List.replicate 45 ⟨-1, ["React"]⟩) 0 7
    ∧ (⟨"React", 45, 0, 100⟩ : TrendRow).growthPercentage = 100 := by
  have hmem : (⟨"React", 45, 0, 100⟩ : TrendRow) ∈
      trending (List.replicate 45 ⟨-1, ["React"]⟩) 0 7 := by decide
  exact ⟨hmem, (trending_growth_semantics.1 _ 0 7 _ hmem).1 rfl⟩

/-- C6: every row of the trending output has a positive current-window count,
and a technology with current = 0 and previous = 10 is excluded entirely. -/
theorem trending_requires_current :
    (∀ (jobs : List TJob) (now days : Int) (r : TrendRow), r ∈ trending jobs now days →
      0 < r.currentCount)
    ∧ trending (List.replicate 10 ⟨-8, ["COBOL"]⟩) 0 7 = [] :=
  ⟨fun jobs now days r hr => (trending_row_shape jobs now days r hr).2, by decide⟩

/-- Witness for C6: a row of a concrete trending result has a positive
current-window count. -/
theorem trending_requires_current_witness :
    (⟨"React", 1, 0, 100⟩ : TrendRow) ∈ trending [⟨-1, ["React"]⟩] 0 7
    ∧ 0 < (⟨"React", 1, 0, 100⟩ : TrendRow).currentCount := by
  have hmem : (⟨"React", 1, 0, 100⟩ : TrendRow) ∈ trending [⟨-1, ["React"]⟩] 0 7 := by decide
  exact ⟨hmem, trending_requires_current.1 _ 0 7 _ hmem⟩

/-- Labels extracted by filtering a pattern registry always come from that
registry's label column. -/
theorem labels_filter_all (pats : List (String × Rx)) (d : String) :
    ((pats.filter (fun p => rtest p.2 d)).map (fun p => p.1)).all
      (fun s => (pats.map (fun p => p.1)).contains s) = true := by
  rw [List.all_eq_true]
  intro s hs
  rw [List.mem_map] at hs
  obtain ⟨p, hp, rfl⟩ := hs
  rw [List.mem_filter] at hp
  exact List.elem_eq_true_of_mem (List.mem_map_of_mem (fun q => q.1) hp.1)

/-- C8: every extractor is total — each is a total Lean function of the
description string — and its value stays inside the declared domain: tech
stack within the keyword registry, education/language/benefit labels within
their registries, location type within the three-value enum, visa sponsorship
within the tri-state, industry within the category labels plus `"Other"`,
district/MTR line within the location registries; and on the empty description
every extractor returns its neutral default. -/
theorem extractors_total_and_in_domain :
    ∀ d : String,
      (extractTechStack d).all (fun t => techKeywords.contains t) = true
      ∧ (extractEducation d).all
          (fun e => (educationPatterns.map (fun p => p.1)).contains e) = true
      ∧ (extractLocation d = "Remote" ∨ extractLocation d = "Hybrid" ∨
          extractLocation d = "On-site")
      ∧ (checkVisaSponsorship d = some true ∨ checkVisaSponsorship d = some false ∨
          checkVisaSponsorship d = none)
      ∧ (extractLanguageRequirements d).all
          (fun s => (languagePatterns.map (fun p => p.1)).contains s) = true
      ∧ (extractHKBenefits d).all
          (fun s => (benefitPatterns.map (fun p => p.1)).contains s) = true
      ∧ (classifyHKIndustry d = "Other" ∨
          (hkIndustries.map (fun p => p.1)).contains (classifyHKIndustry d) = true)
      ∧ Option.all (fun s => hkDistricts.contains s) (extractHKLocation d).district = true
      ∧ Option.all (fun s => hkMtrLines.contains s) (extractHKLocation d).mtrLine = true
      ∧ (extractTechStack "" = [] ∧ extractYearsOfExperience "" = none
          ∧ checkVisaSponsorship "" = none ∧ checkSecurityClearance "" = false
          ∧ extractEducation "" = [] ∧ extractSalaryRange "" = none
          ∧ extractLocation "" = "On-site" ∧ summarizeResponsibilities "" = "..."
          ∧ extractHKSalary "" = none
          ∧ checkWorkPermitRequirements "" = ⟨false, false, false⟩
          ∧ extractHKLocation "" = ⟨none, none, false, false⟩
          ∧ extractLanguageRequirements "" = [] ∧ classifyHKIndustry "" = "Other"
          ∧ extractHKBenefits "" = []
          ∧ extractHKSpecificInfo "" =
              ⟨none, ⟨false, false, false⟩, ⟨none, none, false, false⟩, [], "Other", []⟩) := by
  intro d
  refine ⟨?_, ?_, ?_, ?_, ?_, ?_, ?_, ?_, ?_, by decide⟩
  · rw [List.all_eq_true]
    intro t ht
    rw [mem_extractTechStack] at ht
    exact List.elem_eq_true_of_mem ht.1
  · exact labels_filter_all educationPatterns d
  · unfold extractLocation
    split
    · exact Or.inl rfl
    · split
      · exact Or.inr (Or.inl rfl)
      · exact Or.inr (Or.inr rfl)
  · unfold checkVisaSponsorship
    split
    · exact Or.inr (Or.inl rfl)
    · split
      · exact Or.inl rfl
      · exact Or.inr (Or.inr rfl)
  · exact labels_filter_all languagePatterns d
  · exact labels_filter_all benefitPatterns d
  · unfold classifyHKIndustry
    cases hf : hkIndustries.find? (fun p => rtest p.2 d) with
    | none => exact Or.inl rfl
    | some p =>
      refine Or.inr ?_
      exact List.elem_eq_true_of_mem (List.mem_map_of_mem (fun q => q.1) (List.mem_of_find?_eq_some hf))
  · cases hf : (extractHKLocation d).district with
    | none => rfl
    | some s =>
      have hf2 : hkDistricts.find? (fun dist => literalTest dist d) = some s := hf
      simpa [Option.all] using List.elem_eq_true_of_mem (List.mem_of_find?_eq_some hf2)
  · cases hf : (extractHKLocation d).mtrLine with
    | none => rfl
    | some s =>
      have hf2 : hkMtrLines.find? (fun line => literalTest line d) = some s := hf
      simpa [Option.all] using List.elem_eq_true_of_mem (List.mem_of_find?_eq_some hf2)

end JobBoard
